import Mathlib

/-!
Verification of the DLRover `DistributedJobManager`
(`dlrover/python/master/node/dist_job_manager.py`).

The data model and the manager operations are shallowly embedded below.
Pure helpers of the manager become Lean functions; the stateful pipeline
becomes explicit state passing on `ManagerState`.  Collaborator code that
lives outside the manager module (the `Node` helper methods, the
`get_node_state_flow` table, the per-type node-group managers) is modelled
from the specification and marked as such in its doc comment.
-/

namespace DLRover

/-- Node lifecycle statuses (constants `NodeStatus`). -/
inductive NodeStatus
  | initial
  | pending
  | running
  | succeeded
  | failed
  | finished
  | deleted
  deriving DecidableEq

/-- Node types of a training job (constants `NodeType`). -/
inductive NodeType
  | worker
  | chief
  | ps
  | evaluator
  | master
  deriving DecidableEq

/-- Event types of node events (constants `NodeEventType`), including the
statuses reported by the training agent itself and the master-synthesized
raw event type "exit". -/
inductive NodeEventType
  | added
  | modified
  | deleted
  | exit
  | succeededExited
  | failedExited
  | nodeCheckFailed
  | nodeCheckSucceeded
  | empty
  deriving DecidableEq

/-- Exit reasons of a node (constants `NodeExitReason`). -/
inductive NodeExitReason
  | noReason
  | fatalError
  | oom
  | killed
  | noHeartbeat
  | diagFail
  | relaunched
  deriving DecidableEq

/-- Job stages (constants `JobStage`). -/
inductive JobStage
  | jobInit
  | jobRunning
  | jobStopping
  | jobStopped
  deriving DecidableEq

/-- Distribution strategies (constants `DistributionStrategy`). -/
inductive DistributionStrategy
  | psStrategy
  | allreduce
  | custom
  deriving DecidableEq

/-- A job node with the attributes the manager reads and writes.
Timestamps are integers (seconds); `create_time`/`start_time` are `Option`
because in the source they are datetime objects that may be absent. -/
structure Node where
  type : NodeType
  id : Nat
  rankIndex : Nat
  name : Option String
  status : NodeStatus
  exitReason : NodeExitReason
  relaunchCount : Nat
  maxRelaunchCount : Nat
  relaunchable : Bool
  isReleased : Bool
  critical : Bool
  isRecoveredOom : Bool
  restartTraining : Bool
  configMemory : Nat
  heartbeatTime : Int
  createTime : Option Int
  startTime : Option Int
  hostName : Option String
  hostIp : Option String
  serviceAddr : Option String
  reportedStatus : NodeEventType
  deriving DecidableEq

/-- A node event fed to the manager state machine. -/
structure NodeEvent where
  eventType : NodeEventType
  node : Node
  deriving DecidableEq

/-- A state-flow transition as consumed by `_process_event`. -/
structure NodeStateFlow where
  fromStatus : NodeStatus
  toStatus : NodeStatus
  shouldRelaunch : Bool
  deriving DecidableEq

/-- The unique labels `_get_pod_unique_labels` builds for a node. -/
structure PodUniqueLabels where
  jobName : String
  replicaType : NodeType
  rankIndex : Nat
  replicaIndex : Nat
  deriving DecidableEq

/-- The part of a k8s pod that the deleted-event filter inspects. -/
structure Pod where
  phase : NodeStatus
  hasDeletionTimestamp : Bool
  deriving DecidableEq

/-- A scale plan passed to the scaler. -/
structure ScalePlan where
  nodeGroupResources : List (NodeType × Nat)
  launchNodes : List Node
  removeNodes : List Node
  psAddrs : List String
  deriving DecidableEq

/-- Static configuration of the job manager. -/
structure JobConfig where
  jobName : String
  strategy : DistributionStrategy
  relaunchAlways : Bool
  maxMemory : Nat
  removeExitedNode : Bool
  waitPendingRelaunch : Bool
  deriving DecidableEq

/-- The in-memory node store.  The source keys it by `(type, id)` and
`update_job_node` always files a node under the node's own type and id, so
the store is the list of nodes with lookup by those two attributes. -/
abbrev Store := List Node

/-- Mutable state of the job manager guarded by its lock. -/
structure ManagerState where
  nodes : Store
  jobStage : JobStage
  enableRelaunch : Bool
  stopped : Bool
  pendingRelaunchCount : Nat
  deriving DecidableEq

/-- Outcome of one `_process_event` call: resulting state, whether
`close_job` fired (the process would terminate), the scale plans passed to
the scaler during the call, the `ACTION_NOT_RELAUNCH` message if one was
reported, and whether the job optimizer was asked to adjust OOM resource. -/
structure EventOutcome where
  state : ManagerState
  closed : Bool
  plans : List ScalePlan
  notRelaunchMsg : Option String
  oomAdjusted : Bool
  deriving DecidableEq

/-- Result of `_should_relaunch`: the decision, the node after the policy
mutations, whether `adjust_oom_resource` was called and the message of a
reported `ACTION_NOT_RELAUNCH` event. -/
structure RelaunchDecision where
  result : Bool
  node : Node
  oomAdjusted : Bool
  notRelaunchMsg : Option String
  deriving DecidableEq

/-- Look a node up by type and id (`job_nodes[type][id]`). -/
def storeGet : Store → NodeType → Nat → Option Node
  | [], _, _ => none
  | n :: rest, t, i => if n.type = t ∧ n.id = i then some n else storeGet rest t i

/-- `job_context.update_job_node`: file a node under its own type and id,
replacing the previous entry or appending. -/
def update_job_node : Store → Node → Store
  | [], m => [m]
  | n :: rest, m =>
      if n.type = m.type ∧ n.id = m.id then m :: rest
      else n :: update_job_node rest m

/-- Largest id present in the store for a node type (0 when none). -/
def maxTypeId : Store → NodeType → Nat
  | [], _ => 0
  | n :: rest, t => if n.type = t then max n.id (maxTypeId rest t) else maxTypeId rest t

/-- `is_positive_exit`: an exit the manager itself induced. -/
def is_positive_exit (r : NodeExitReason) : Bool :=
  r = NodeExitReason.diagFail || r = NodeExitReason.noHeartbeat

/-- `_get_pod_unique_labels`: job name, replica type, rank index and
replica index of a node. -/
def get_pod_unique_labels (cfg : JobConfig) (node : Node) : PodUniqueLabels :=
  { jobName := cfg.jobName
    replicaType := node.type
    rankIndex := node.rankIndex
    replicaIndex := node.id }

/-- `is_all_reduce_type_job`. -/
def isAllReduceTypeJob (cfg : JobConfig) : Bool :=
  cfg.strategy = DistributionStrategy.allreduce

/-- Modelled from the spec: `Node.is_succeeded_and_exited` is outside the
given sources; per the data model the node's `reported_status` records the
agent-pushed status such as SUCCEEDED_EXITED. -/
def isSucceededAndExited (n : Node) : Bool :=
  n.reportedStatus = NodeEventType.succeededExited

/-- Modelled from the spec: `Node.exited` is outside the given sources; a
node has exited when its status is terminal
(succeeded, failed, finished or deleted). -/
def nodeExited (n : Node) : Bool :=
  n.status = NodeStatus.succeeded || n.status = NodeStatus.failed ||
  n.status = NodeStatus.finished || n.status = NodeStatus.deleted

/-- Modelled from the spec: `Node.update_info` is outside the given
sources.  The caller `_process_event` passes the event node's name, times,
host, restart flag, relaunch count and release flag and its debug log
documents that these fields are updated; optional fields are assigned when
present, `relaunch_count` keeps the larger value (the spec declares it
monotonically non-decreasing), and `is_released` is only ever raised. -/
def update_info (cur : Node) (ev : Node) : Node :=
  { cur with
      name := if ev.name.isSome then ev.name else cur.name
      startTime := if ev.startTime.isSome then ev.startTime else cur.startTime
      createTime := if ev.createTime.isSome then ev.createTime else cur.createTime
      hostName := if ev.hostName.isSome then ev.hostName else cur.hostName
      hostIp := if ev.hostIp.isSome then ev.hostIp else cur.hostIp
      restartTraining := ev.restartTraining
      relaunchCount := max cur.relaunchCount ev.relaunchCount
      isReleased := cur.isReleased || ev.isReleased }

/-- Modelled from the spec: the `get_node_state_flow` table is outside the
given sources.  Per the spec: `initial → pending → running →
(succeeded|failed|deleted)`; any transition out of `succeeded` is rejected;
deleted events force the node to `deleted` (or to `failed` when the event
node already carries a failed status, as the synthesized no-heartbeat and
diagnosis events do), and losses out of `pending`/`running` are
relaunch-eligible. -/
def get_node_state_flow (old : NodeStatus) (ev : NodeEventType)
    (new : NodeStatus) : Option NodeStateFlow :=
  if old = NodeStatus.succeeded then none
  else if old = new then none
  else if ev = NodeEventType.deleted || new = NodeStatus.deleted then
    let eligible := old = NodeStatus.pending || old = NodeStatus.running
    if new = NodeStatus.failed then
      some { fromStatus := old, toStatus := NodeStatus.failed, shouldRelaunch := eligible }
    else
      some { fromStatus := old, toStatus := NodeStatus.deleted, shouldRelaunch := eligible }
  else
    match old, new with
    | NodeStatus.initial, NodeStatus.pending =>
        some { fromStatus := old, toStatus := new, shouldRelaunch := false }
    | NodeStatus.initial, NodeStatus.running =>
        some { fromStatus := old, toStatus := new, shouldRelaunch := false }
    | NodeStatus.pending, NodeStatus.running =>
        some { fromStatus := old, toStatus := new, shouldRelaunch := false }
    | NodeStatus.pending, NodeStatus.succeeded =>
        some { fromStatus := old, toStatus := new, shouldRelaunch := false }
    | NodeStatus.pending, NodeStatus.failed =>
        some { fromStatus := old, toStatus := new, shouldRelaunch := true }
    | NodeStatus.running, NodeStatus.succeeded =>
        some { fromStatus := old, toStatus := new, shouldRelaunch := false }
    | NodeStatus.running, NodeStatus.failed =>
        some { fromStatus := old, toStatus := new, shouldRelaunch := true }
    | _, _ => none

/-- The exit-reason decision chain of `_should_relaunch`, entered once the
gate (relaunch-eligible transition, relaunch enabled, node relaunchable)
has passed.  Returns the decision, the possibly-updated node, whether
`adjust_oom_resource` was called and the not-relaunch message. -/
def relaunchPolicyStep (cfg : JobConfig) (stage : JobStage) (node : Node) :
    Bool × Node × Bool × Option String :=
  if stage = JobStage.jobStopping then
    (false, node, false, some "Disable relaunch when job is stopping")
  else if node.exitReason = NodeExitReason.fatalError && !cfg.relaunchAlways then
    (false, node, false, some "Disable relaunch due to fatal error")
  else if node.exitReason = NodeExitReason.relaunched then
    (false, node, false, some "Disable relaunch due to already relaunched")
  else if node.exitReason = NodeExitReason.oom then
    if isAllReduceTypeJob cfg then
      (false, node, false, none)
    else if node.configMemory ≥ cfg.maxMemory then
      (false, node, false,
        some (toString node.configMemory ++ " beyond " ++ toString cfg.maxMemory))
    else if node.relaunchCount ≥ node.maxRelaunchCount then
      (false, node, false,
        some ("Relaunched " ++ toString node.relaunchCount ++ " beyond "
          ++ toString node.maxRelaunchCount))
    else
      (true, { node with isRecoveredOom := true }, true, none)
  else if node.exitReason ≠ NodeExitReason.killed then
    if node.relaunchCount ≥ node.maxRelaunchCount then
      (false, node, false,
        some (toString node.relaunchCount ++ " exhausted "
          ++ toString node.maxRelaunchCount))
    else
      (true, node, false, none)
  else
    (true, node, false, none)

/-- `_should_relaunch`, transcribed branch by branch from the source.  The
first gate requires the transition to be relaunch-eligible, relaunch to be
enabled and the node relaunchable; then the exit-reason decision chain runs
and, on allow, `relaunch_count` is incremented. -/
def _should_relaunch (cfg : JobConfig) (enableRelaunch : Bool)
    (stage : JobStage) (node : Node) (flow : NodeStateFlow) : RelaunchDecision :=
  let step : Bool × Node × Bool × Option String :=
    if flow.shouldRelaunch && enableRelaunch && node.relaunchable then
      relaunchPolicyStep cfg stage node
    else
      (false, node, false, none)
  { result := step.1
    node :=
      if step.1 then { step.2.1 with relaunchCount := step.2.1.relaunchCount + 1 }
      else step.2.1
    oomAdjusted := step.2.2.1
    notRelaunchMsg := step.2.2.2 }

/-- Modelled from the spec: the per-type `relaunch_node` of the node-group
managers is outside the given sources; per the spec it allocates a fresh id
`max(existing ids) + 1`, constructs a new node with copied config resource
and preserved `max_relaunch_count`, inserts it into the store, and
optionally appends the old node to `remove_nodes`. -/
def relaunchNewNode (node : Node) (newId : Nat) : Node :=
  { node with
      id := newId
      name := none
      status := NodeStatus.initial
      exitReason := NodeExitReason.noReason
      isReleased := false
      relaunchable := true
      restartTraining := false
      heartbeatTime := 0
      createTime := none
      startTime := none
      hostName := none
      hostIp := none
      serviceAddr := none
      reportedStatus := NodeEventType.empty }

def relaunch_node (cfg : JobConfig) (nodes : Store) (node : Node) :
    Store × ScalePlan :=
  let newNode := relaunchNewNode node (maxTypeId nodes node.type + 1)
  let nodes' := update_job_node nodes newNode
  let plan : ScalePlan :=
    { nodeGroupResources := []
      launchNodes := [newNode]
      removeNodes := if cfg.removeExitedNode then [node] else []
      psAddrs := [] }
  (nodes', plan)

/-- `_relaunch_node`: build the per-type relaunch plan, append the old node
to `remove_nodes` when exited nodes are removed, clear the node's
`relaunchable` flag, persist it and pass the plan to the scaler. -/
def _relaunch_node (cfg : JobConfig) (st : ManagerState) (node : Node) :
    ManagerState × ScalePlan :=
  let launched := relaunch_node cfg st.nodes node
  let plan :=
    if cfg.removeExitedNode then
      { launched.2 with removeNodes := launched.2.removeNodes ++ [node] }
    else launched.2
  let oldNode := { node with relaunchable := false }
  let nodes2 := update_job_node launched.1 oldNode
  ({ st with nodes := nodes2 }, plan)

/-- The zero-count plan `close_job` emits for workers and PS. -/
def closeJobPlan : ScalePlan :=
  { nodeGroupResources := [(NodeType.worker, 0), (NodeType.ps, 0)]
    launchNodes := []
    removeNodes := []
    psAddrs := [] }

/-- Outcome of a call that leaves the manager state untouched and passes
nothing to the scaler. -/
def noChange (st : ManagerState) : EventOutcome :=
  { state := st, closed := false, plans := [], notRelaunchMsg := none, oomAdjusted := false }

/-- The deleted-event filter at the head of `_process_event`: a DELETED
event (or one whose node status is deleted) without a positive exit reason
is dropped when some pod matching the node's unique labels is running
without a deletion timestamp. -/
def deletedEventFilterHit (cfg : JobConfig) (listPods : PodUniqueLabels → List Pod)
    (event : NodeEvent) : Bool :=
  ((event.eventType = NodeEventType.deleted || event.node.status = NodeStatus.deleted)
      && !(is_positive_exit event.node.exitReason))
    && ((listPods (get_pod_unique_labels cfg event.node)).any
          fun p => p.phase = NodeStatus.running && !p.hasDeletionTimestamp)

/-- Tail of `_process_event` once a matching state-flow transition (not
out of succeeded) was found: update the node's status and exit reason from
the event, consult the relaunch policy and, on allow, emit the relaunch
plan. -/
def processEventTransition (cfg : JobConfig) (st1 : ManagerState)
    (enode : Node) (cur1 : Node) (flow : NodeStateFlow) : EventOutcome :=
  let cur2 := { cur1 with status := enode.status, exitReason := enode.exitReason }
  let st2 := { st1 with nodes := update_job_node st1.nodes cur2 }
  let dec := _should_relaunch cfg st2.enableRelaunch st2.jobStage cur2 flow
  let st3 :=
    { st2 with
        nodes := update_job_node st2.nodes dec.node
        pendingRelaunchCount :=
          if dec.result && cfg.waitPendingRelaunch then st2.pendingRelaunchCount + 1
          else st2.pendingRelaunchCount }
  if dec.result then
    let launched := _relaunch_node cfg st3 dec.node
    { state := launched.1, closed := false, plans := [launched.2],
      notRelaunchMsg := dec.notRelaunchMsg, oomAdjusted := dec.oomAdjusted }
  else
    { state := st3, closed := false, plans := [],
      notRelaunchMsg := dec.notRelaunchMsg, oomAdjusted := dec.oomAdjusted }

/-- Body of `_process_event` for a node found in the store: update its
metadata from the event, close the job on the "exit" event, and otherwise
evaluate the state-flow transition (returning directly when it is `none`
or leaves `succeeded`). -/
def processEventWithNode (cfg : JobConfig) (st : ManagerState) (event : NodeEvent)
    (cur0 : Node) : EventOutcome :=
  let enode := event.node
  let cur1 := update_info cur0 enode
  let st1 := { st with nodes := update_job_node st.nodes cur1 }
  if event.eventType = NodeEventType.exit then
    { state := st1, closed := true, plans := [closeJobPlan],
      notRelaunchMsg := none, oomAdjusted := false }
  else
    match get_node_state_flow cur1.status event.eventType enode.status with
    | none => noChange st1
    | some flow =>
        if flow.fromStatus = NodeStatus.succeeded then noChange st1
        else processEventTransition cfg st1 enode cur1 flow

/-- `_process_event`.  The deleted-event filter runs first; then the node
is looked up (a released node returns directly), its metadata updated from
the event, the "exit" event closes the job, and otherwise the state-flow
transition is evaluated, the status and exit reason updated, the relaunch
policy consulted and, on allow, the relaunch plan emitted. -/
def _process_event (cfg : JobConfig) (listPods : PodUniqueLabels → List Pod)
    (st : ManagerState) (event : NodeEvent) : EventOutcome :=
  if deletedEventFilterHit cfg listPods event then noChange st
  else
    match storeGet st.nodes event.node.type event.node.id with
    | none => noChange st
    | some cur0 => processEventWithNode cfg st event cur0

/-- Process a history of events in order; a close stops the pipeline. -/
def processEvents (cfg : JobConfig) (listPods : PodUniqueLabels → List Pod) :
    ManagerState → List NodeEvent → ManagerState
  | st, [] => st
  | st, e :: rest =>
      let out := _process_event cfg listPods st e
      if out.closed then out.state
      else processEvents cfg listPods out.state rest

/-- The synthesized dead-node event for a node. -/
def mkDeadNodeEvent (node : Node) : NodeEvent :=
  { eventType := NodeEventType.deleted
    node := { node with status := NodeStatus.failed
                        exitReason := NodeExitReason.noHeartbeat } }

/-- Per-node body of `_get_dead_node_event`: the outer guard checks a
positive, stale heartbeat on a running, not succeeded-and-exited node with
known create and start times; the inner guard skips nodes whose heartbeat
does not postdate both times. -/
def deadNodeEventFor (now windowInterval : Int) (node : Node) : Option NodeEvent :=
  match node.startTime, node.createTime with
  | some startT, some createT =>
      if node.heartbeatTime > 0 && now - node.heartbeatTime > windowInterval
          && node.status = NodeStatus.running && !(isSucceededAndExited node) then
        if node.heartbeatTime ≤ startT || node.heartbeatTime ≤ createT then none
        else some (mkDeadNodeEvent node)
      else none
  | _, _ => none

/-- `_get_dead_node_event`: collect a synthesized DELETED/no-heartbeat
event for every dead node in the store. -/
def _get_dead_node_event (now windowInterval : Int) (nodes : Store) :
    List NodeEvent :=
  nodes.filterMap fun n => deadNodeEventFor now windowInterval n

/-- `stop`: disable relaunch, mark every node non-critical, released and
non-relaunchable, and set the stopped flag. -/
def stopManager (st : ManagerState) : ManagerState :=
  if st.stopped then st
  else
    { st with
        enableRelaunch := false
        nodes := st.nodes.map fun n =>
          { n with critical := false, isReleased := true, relaunchable := false }
        stopped := true }

/-- `clear_exited_nodes`: when exited nodes are removed, release every
exited unreleased node; a plan is passed to the scaler only when it removes
at least one node. -/
def clear_exited_nodes (cfg : JobConfig) (st : ManagerState) :
    ManagerState × List ScalePlan :=
  if !cfg.removeExitedNode then (st, [])
  else
    let targets := st.nodes.filter fun n => !n.isReleased && nodeExited n
    let nodes' := st.nodes.map fun n =>
      if !n.isReleased && nodeExited n then { n with isReleased := true } else n
    if targets.length > 0 then
      ({ st with nodes := nodes' },
        [{ nodeGroupResources := [], launchNodes := [], removeNodes := targets, psAddrs := [] }])
    else (st, [])

/-- `clear_all_nodes`: release every unreleased node and pass the removal
plan to the scaler unconditionally. -/
def clear_all_nodes (st : ManagerState) : ManagerState × List ScalePlan :=
  let targets := st.nodes.filter fun n => !n.isReleased
  let nodes' := st.nodes.map fun n =>
    if !n.isReleased then { n with isReleased := true } else n
  ({ st with nodes := nodes' },
    [{ nodeGroupResources := [], launchNodes := [], removeNodes := targets, psAddrs := [] }])

/-- `update_node_service_addr`: update the service address and set the node
running and unreleased. -/
def update_node_service_addr (st : ManagerState) (t : NodeType) (id : Nat)
    (addr : String) : ManagerState :=
  match storeGet st.nodes t id with
  | none => st
  | some n =>
      { st with
          nodes := update_job_node st.nodes
            { n with serviceAddr := some addr
                     status := NodeStatus.running
                     isReleased := false } }

/-- `process_reported_node_event`: record the agent-reported status on the
node when present and move the job stage to stopping on SUCCEEDED_EXITED.
`Node.update_reported_status` is modelled from the spec as recording the
last agent-pushed status. -/
def process_reported_node_event (st : ManagerState) (ev : NodeEvent) :
    ManagerState :=
  let st1 :=
    match storeGet st.nodes ev.node.type ev.node.id with
    | none => st
    | some n =>
        { st with nodes := update_job_node st.nodes { n with reportedStatus := ev.eventType } }
  if ev.eventType = NodeEventType.succeededExited then
    { st1 with jobStage := JobStage.jobStopping }
  else st1

/-- Job exit reasons produced by `should_early_stop`
(constants `JobExitReason`); `noneReason` models the empty string. -/
inductive JobExitReason
  | nodeCheckFailed
  | pendingTimeout
  | uncompletedTimeout
  | noneReason
  deriving DecidableEq

/-- Results of the detector oracles `should_early_stop` consults: the
worker manager's initial node-check verdict, the PS manager's
OOM-recovered pending-timeout nodes, the pending-hang nodes found by the
PS and worker managers, and the insufficient-worker verdict. -/
structure EarlyStopDeps where
  allInitialWorkersNodeCheckFailed : Bool
  pendingTimeoutOomRecoveredPs : List Node
  psPendingHangNode : Option Node
  workerPendingHangNode : Option Node
  insufficientWorker : Bool
  deriving DecidableEq

def earlyStopNodeCheckMsg : String :=
  "Stop the training early because all worker nodes has failed the node check in rendezvous."

def earlyStopOomPendingMsg : String :=
  "Stop the training early because the nodes recovered from OOM are pending too long and have timed out."

def earlyStopPendingMsg : String :=
  "Stop the training early because 1) there is node pending 2) alive nodes number consistently less than the min training nodes required 3) pending time last exceed limit."

def earlyStopInsufficientMsg : String :=
  "Stop the training early because there is not enough node to keep training."

/-- The first pending node: the PS manager's find, else the worker
manager's. -/
def firstPendingNode (d : EarlyStopDeps) : Option Node :=
  match d.psPendingHangNode with
  | some n => some n
  | none => d.workerPendingHangNode

/-- `should_early_stop`: the four stop conditions checked in source
order. -/
def should_early_stop (cfg : JobConfig) (deps : EarlyStopDeps) :
    Bool × JobExitReason × String :=
  if isAllReduceTypeJob cfg && deps.allInitialWorkersNodeCheckFailed then
    (true, JobExitReason.nodeCheckFailed, earlyStopNodeCheckMsg)
  else if deps.pendingTimeoutOomRecoveredPs.length > 0 then
    (true, JobExitReason.pendingTimeout, earlyStopOomPendingMsg)
  else if (firstPendingNode deps).isSome then
    (true, JobExitReason.pendingTimeout, earlyStopPendingMsg)
  else if isAllReduceTypeJob cfg && deps.insufficientWorker then
    (true, JobExitReason.uncompletedTimeout, earlyStopInsufficientMsg)
  else
    (false, JobExitReason.noneReason, "")

/-- Manager operations considered in the post-stop history. -/
inductive MgrOp
  | procEvent (e : NodeEvent)
  | clearExited
  deriving DecidableEq

/-- Run a sequence of manager operations, collecting every scale plan that
is passed to the scaler. -/
def runOps (cfg : JobConfig) (listPods : PodUniqueLabels → List Pod) :
    ManagerState → List MgrOp → ManagerState × List ScalePlan
  | st, [] => (st, [])
  | st, MgrOp.procEvent e :: rest =>
      let out := _process_event cfg listPods st e
      if out.closed then (out.state, out.plans)
      else
        let tail := runOps cfg listPods out.state rest
        (tail.1, out.plans ++ tail.2)
  | st, MgrOp.clearExited :: rest =>
      let cleared := clear_exited_nodes cfg st
      let tail := runOps cfg listPods cleared.1 rest
      (tail.1, cleared.2 ++ tail.2)

/-- Every node of the store carries the released flag. -/
def allReleasedB (s : Store) : Bool :=
  s.all fun n => n.isReleased

/-! ### Store lemmas -/

theorem storeGet_type_id (s : Store) (t : NodeType) (i : Nat) (n : Node)
    (h : storeGet s t i = some n) : n.type = t ∧ n.id = i := by
  induction s with
  | nil => simp [storeGet] at h
  | cons m rest ih =>
      rw [storeGet] at h
      by_cases hm : m.type = t ∧ m.id = i
      · rw [if_pos hm] at h
        cases h
        exact hm
      · rw [if_neg hm] at h
        exact ih h

theorem storeGet_update_self (s : Store) (m : Node) :
    storeGet (update_job_node s m) m.type m.id = some m := by
  induction s with
  | nil => simp [update_job_node, storeGet]
  | cons n rest ih =>
      by_cases h : n.type = m.type ∧ n.id = m.id
      · simp [update_job_node, h, storeGet]
      · simp only [update_job_node, if_neg h]
        rw [storeGet, if_neg, ih]
        intro hc
        exact h ⟨hc.1, hc.2⟩

theorem storeGet_update_ne (s : Store) (m : Node) (t : NodeType) (i : Nat)
    (h : ¬(m.type = t ∧ m.id = i)) :
    storeGet (update_job_node s m) t i = storeGet s t i := by
  induction s with
  | nil => simp [update_job_node, storeGet, h]
  | cons n rest ih =>
      by_cases hn : n.type = m.type ∧ n.id = m.id
      · have hnti : ¬(n.type = t ∧ n.id = i) := by
          intro hc
          exact h ⟨hn.1 ▸ hc.1, hn.2 ▸ hc.2⟩
        simp [update_job_node, hn, storeGet, h, hnti]
      · simp only [update_job_node, if_neg hn]
        rw [storeGet, storeGet]
        by_cases hnt : n.type = t ∧ n.id = i
        · rw [if_pos hnt, if_pos hnt]
        · rw [if_neg hnt, if_neg hnt]
          exact ih

theorem update_update_same (s : Store) (a b : Node)
    (ht : b.type = a.type) (hi : b.id = a.id) :
    update_job_node (update_job_node s a) b = update_job_node s b := by
  induction s with
  | nil => simp [update_job_node, ht, hi]
  | cons n rest ih =>
      by_cases hn : n.type = a.type ∧ n.id = a.id
      · have hb : n.type = b.type ∧ n.id = b.id := ⟨ht ▸ hn.1, hi ▸ hn.2⟩
        simp [update_job_node, hn, hb, ht, hi]
      · have hb : ¬(n.type = b.type ∧ n.id = b.id) := by
          intro hc
          exact hn ⟨ht ▸ hc.1, hi ▸ hc.2⟩
        simp [update_job_node, hn, hb, ih]

theorem le_maxTypeId_of_storeGet (s : Store) (t : NodeType) (i : Nat) (n : Node)
    (h : storeGet s t i = some n) : i ≤ maxTypeId s t := by
  induction s with
  | nil => simp [storeGet] at h
  | cons m rest ih =>
      rw [storeGet] at h
      by_cases hm : m.type = t ∧ m.id = i
      · rw [if_pos hm] at h
        rw [maxTypeId, if_pos hm.1, hm.2]
        exact Nat.le_max_left _ _
      · rw [if_neg hm] at h
        have hle := ih h
        rw [maxTypeId]
        by_cases hmt : m.type = t
        · rw [if_pos hmt]
          exact le_trans hle (Nat.le_max_right _ _)
        · rw [if_neg hmt]
          exact hle

theorem storeGet_maxTypeId_succ (s : Store) (t : NodeType) :
    storeGet s t (maxTypeId s t + 1) = none := by
  cases h : storeGet s t (maxTypeId s t + 1) with
  | none => rfl
  | some n =>
      exact absurd (le_maxTypeId_of_storeGet s t _ n h) (by omega)

theorem allReleasedB_storeGet (s : Store) (t : NodeType) (i : Nat) (n : Node)
    (hall : allReleasedB s = true) (h : storeGet s t i = some n) :
    n.isReleased = true := by
  induction s with
  | nil => simp [storeGet] at h
  | cons m rest ih =>
      rw [allReleasedB, List.all_cons, Bool.and_eq_true] at hall
      rw [storeGet] at h
      by_cases hm : m.type = t ∧ m.id = i
      · rw [if_pos hm] at h
        cases h
        exact hall.1
      · rw [if_neg hm] at h
        exact ih hall.2 h

theorem allReleasedB_update (s : Store) (m : Node)
    (hall : allReleasedB s = true) (hm : m.isReleased = true) :
    allReleasedB (update_job_node s m) = true := by
  induction s with
  | nil => simp [update_job_node, allReleasedB, hm]
  | cons n rest ih =>
      rw [allReleasedB, List.all_cons, Bool.and_eq_true] at hall
      by_cases hn : n.type = m.type ∧ n.id = m.id
      · simp only [update_job_node, if_pos hn]
        rw [allReleasedB, List.all_cons, Bool.and_eq_true]
        exact ⟨hm, hall.2⟩
      · simp only [update_job_node, if_neg hn]
        rw [allReleasedB, List.all_cons, Bool.and_eq_true]
        exact ⟨hall.1, ih hall.2⟩

/-! ### Facts about the relaunch policy and the metadata update -/

theorem update_info_relaunchCount_le (cur ev : Node) :
    cur.relaunchCount ≤ (update_info cur ev).relaunchCount :=
  Nat.le_max_left _ _

theorem update_info_status (cur ev : Node) :
    (update_info cur ev).status = cur.status := rfl

theorem update_info_type_id (cur ev : Node) :
    (update_info cur ev).type = cur.type ∧ (update_info cur ev).id = cur.id :=
  ⟨rfl, rfl⟩

theorem update_info_isReleased (cur ev : Node)
    (h : cur.isReleased = true) : (update_info cur ev).isReleased = true := by
  simp [update_info, h]

theorem relaunchPolicyStep_count (cfg : JobConfig) (stage : JobStage) (node : Node) :
    (relaunchPolicyStep cfg stage node).2.1.relaunchCount = node.relaunchCount := by
  simp only [relaunchPolicyStep]
  split_ifs <;> rfl

theorem relaunchPolicyStep_fields (cfg : JobConfig) (stage : JobStage) (node : Node) :
    (relaunchPolicyStep cfg stage node).2.1.status = node.status ∧
    (relaunchPolicyStep cfg stage node).2.1.isReleased = node.isReleased ∧
    (relaunchPolicyStep cfg stage node).2.1.type = node.type ∧
    (relaunchPolicyStep cfg stage node).2.1.id = node.id := by
  simp only [relaunchPolicyStep]
  split_ifs <;> exact ⟨rfl, rfl, rfl, rfl⟩

/-- The relaunch policy either keeps the node's relaunch count or bumps it
by one. -/
theorem should_relaunch_count_cases (cfg : JobConfig) (en : Bool)
    (stage : JobStage) (node : Node) (flow : NodeStateFlow) :
    (_should_relaunch cfg en stage node flow).node.relaunchCount = node.relaunchCount ∨
    (_should_relaunch cfg en stage node flow).node.relaunchCount = node.relaunchCount + 1 := by
  have hc := relaunchPolicyStep_count cfg stage node
  simp only [_should_relaunch]
  by_cases hg : (flow.shouldRelaunch && en && node.relaunchable) = true
  · simp only [hg, if_true]
    by_cases hr : (relaunchPolicyStep cfg stage node).1 = true
    · right; simp [hr, hc]
    · left; simp [hr, hc]
  · left; simp [hg]

theorem should_relaunch_count_le (cfg : JobConfig) (en : Bool)
    (stage : JobStage) (node : Node) (flow : NodeStateFlow) :
    node.relaunchCount ≤ (_should_relaunch cfg en stage node flow).node.relaunchCount := by
  rcases should_relaunch_count_cases cfg en stage node flow with h | h <;> omega

/-- Apart from the relaunch count and the OOM-recovery flag, the relaunch
policy does not modify the node. -/
theorem should_relaunch_node_fields (cfg : JobConfig) (en : Bool)
    (stage : JobStage) (node : Node) (flow : NodeStateFlow) :
    (_should_relaunch cfg en stage node flow).node.status = node.status ∧
    (_should_relaunch cfg en stage node flow).node.isReleased = node.isReleased ∧
    (_should_relaunch cfg en stage node flow).node.type = node.type ∧
    (_should_relaunch cfg en stage node flow).node.id = node.id := by
  have hf := relaunchPolicyStep_fields cfg stage node
  simp only [_should_relaunch]
  by_cases hg : (flow.shouldRelaunch && en && node.relaunchable) = true
  · simp only [hg, if_true]
    by_cases hr : (relaunchPolicyStep cfg stage node).1 = true
    · simp [hr, hf.1, hf.2.1, hf.2.2.1, hf.2.2.2]
    · simp [hr, hf.1, hf.2.1, hf.2.2.1, hf.2.2.2]
  · simp [hg]

/-- With relaunch disabled the policy gate is closed: the decision is
negative and the node is returned untouched. -/
theorem should_relaunch_disabled (cfg : JobConfig) (stage : JobStage)
    (node : Node) (flow : NodeStateFlow) :
    _should_relaunch cfg false stage node flow =
      { result := false, node := node, oomAdjusted := false, notRelaunchMsg := none } := by
  simp [_should_relaunch]

theorem get_node_state_flow_succeeded (ev : NodeEventType) (new : NodeStatus) :
    get_node_state_flow NodeStatus.succeeded ev new = none := by
  simp [get_node_state_flow]

/-! ### Per-step preservation through `_process_event` -/

theorem relaunchNewNode_type (node : Node) (k : Nat) :
    (relaunchNewNode node k).type = node.type := rfl

theorem relaunchNewNode_id (node : Node) (k : Nat) :
    (relaunchNewNode node k).id = k := rfl

/-- Explicit form of the store after the transition tail of
`_process_event`. -/
theorem processEventTransition_nodes (cfg : JobConfig) (st1 : ManagerState)
    (enode cur1 : Node) (flow : NodeStateFlow) :
    (processEventTransition cfg st1 enode cur1 flow).state.nodes =
      (let cur2 : Node := { cur1 with status := enode.status, exitReason := enode.exitReason }
       let dec := _should_relaunch cfg st1.enableRelaunch st1.jobStage cur2 flow
       let s3 := update_job_node (update_job_node st1.nodes cur2) dec.node
       if dec.result then
         update_job_node (update_job_node s3
             (relaunchNewNode dec.node (maxTypeId s3 dec.node.type + 1)))
           { dec.node with relaunchable := false }
       else s3) := by
  unfold processEventTransition _relaunch_node relaunch_node
  dsimp only
  by_cases hres : (_should_relaunch cfg st1.enableRelaunch st1.jobStage
      { cur1 with status := enode.status, exitReason := enode.exitReason } flow).result = true
  · rw [if_pos hres, if_pos hres]
  · rw [if_neg hres, if_neg hres]

/-- Through the transition tail of `_process_event`, every node slot keeps
a node whose relaunch count did not decrease, and slots other than the
event node's are untouched. -/
theorem processEventTransition_preserves (cfg : JobConfig) (st1 : ManagerState)
    (enode cur1 : Node) (flow : NodeStateFlow) (t : NodeType) (i : Nat) (n : Node)
    (hkey : storeGet st1.nodes cur1.type cur1.id = some cur1)
    (h : storeGet st1.nodes t i = some n) :
    ∃ n', storeGet (processEventTransition cfg st1 enode cur1 flow).state.nodes t i = some n' ∧
      n.relaunchCount ≤ n'.relaunchCount ∧
      (¬(cur1.type = t ∧ cur1.id = i) → n' = n) := by
  rw [processEventTransition_nodes]
  dsimp only
  set cur2 : Node := { cur1 with status := enode.status, exitReason := enode.exitReason }
    with hcur2
  set dec := _should_relaunch cfg st1.enableRelaunch st1.jobStage cur2 flow with hdec
  have hfields := should_relaunch_node_fields cfg st1.enableRelaunch st1.jobStage cur2 flow
  have htype : dec.node.type = cur1.type := hfields.2.2.1
  have hid : dec.node.id = cur1.id := hfields.2.2.2
  have hcnt : cur1.relaunchCount ≤ dec.node.relaunchCount :=
    should_relaunch_count_le cfg st1.enableRelaunch st1.jobStage cur2 flow
  have hcollapse :
      update_job_node (update_job_node st1.nodes cur2) dec.node =
        update_job_node st1.nodes dec.node :=
    update_update_same st1.nodes cur2 dec.node htype hid
  have holdtype : ({ dec.node with relaunchable := false } : Node).type = dec.node.type := rfl
  have holdid : ({ dec.node with relaunchable := false } : Node).id = dec.node.id := rfl
  cases hres : dec.result with
  | true =>
    rw [if_pos rfl]
    rw [hcollapse]
    by_cases hti : cur1.type = t ∧ cur1.id = i
    · -- the event node's own slot now holds the de-relaunchabled node
      obtain ⟨ht, hi⟩ := hti
      subst ht
      subst hi
      have hn : n = cur1 := by
        rw [hkey] at h
        cases h
        rfl
      refine ⟨{ dec.node with relaunchable := false }, ?_, ?_, ?_⟩
      · rw [← htype, ← hid]
        exact storeGet_update_self _ _
      · rw [hn]
        exact hcnt
      · intro hcon
        exact absurd ⟨rfl, rfl⟩ hcon
    · -- an unrelated slot is untouched
      have hne1 : ¬(dec.node.type = t ∧ dec.node.id = i) := by
        rw [htype, hid]
        exact hti
      have hbasekeep : storeGet (update_job_node st1.nodes dec.node) t i = some n := by
        rw [storeGet_update_ne st1.nodes dec.node t i hne1]
        exact h
      have hneOld : ¬(({ dec.node with relaunchable := false } : Node).type = t ∧
          ({ dec.node with relaunchable := false } : Node).id = i) := by
        rw [holdtype, holdid]
        exact hne1
      rw [storeGet_update_ne _ _ t i hneOld]
      by_cases hnew :
          ((relaunchNewNode dec.node
              (maxTypeId (update_job_node st1.nodes dec.node) dec.node.type + 1)).type = t ∧
            (relaunchNewNode dec.node
              (maxTypeId (update_job_node st1.nodes dec.node) dec.node.type + 1)).id = i)
      · -- impossible: the fresh id is not present in the store
        exfalso
        have hfresh := storeGet_maxTypeId_succ (update_job_node st1.nodes dec.node) dec.node.type
        rw [relaunchNewNode_type] at hnew
        rw [relaunchNewNode_id] at hnew
        rw [hnew.2] at hfresh
        rw [hnew.1] at hfresh
        rw [hfresh] at hbasekeep
        cases hbasekeep
      · rw [storeGet_update_ne _ _ t i hnew]
        exact ⟨n, hbasekeep, le_refl _, fun _ => rfl⟩
  | false =>
    rw [if_neg Bool.false_ne_true]
    rw [hcollapse]
    by_cases hti : cur1.type = t ∧ cur1.id = i
    · obtain ⟨ht, hi⟩ := hti
      subst ht
      subst hi
      have hn : n = cur1 := by
        rw [hkey] at h
        cases h
        rfl
      refine ⟨dec.node, ?_, ?_, ?_⟩
      · rw [← htype, ← hid]
        exact storeGet_update_self _ _
      · rw [hn]
        exact hcnt
      · intro hcon
        exact absurd ⟨rfl, rfl⟩ hcon
    · have hne1 : ¬(dec.node.type = t ∧ dec.node.id = i) := by
        rw [htype, hid]
        exact hti
      rw [storeGet_update_ne st1.nodes dec.node t i hne1]
      exact ⟨n, h, le_refl _, fun _ => rfl⟩

/-- Through `_process_event` on a node found in the store, every slot keeps
a node with non-decreasing relaunch count, and a slot holding a succeeded
node still holds a succeeded node. -/
theorem processEventWithNode_preserves (cfg : JobConfig) (st : ManagerState)
    (event : NodeEvent) (cur0 : Node) (t : NodeType) (i : Nat) (n : Node)
    (hcur : storeGet st.nodes event.node.type event.node.id = some cur0)
    (h : storeGet st.nodes t i = some n) :
    ∃ n', storeGet (processEventWithNode cfg st event cur0).state.nodes t i = some n' ∧
      n.relaunchCount ≤ n'.relaunchCount ∧
      (n.status = NodeStatus.succeeded → n'.status = NodeStatus.succeeded) := by
  have hti0 := storeGet_type_id st.nodes event.node.type event.node.id cur0 hcur
  have hcur1get : storeGet (update_job_node st.nodes (update_info cur0 event.node))
      (update_info cur0 event.node).type (update_info cur0 event.node).id =
      some (update_info cur0 event.node) := storeGet_update_self _ _
  -- value of an arbitrary slot after the metadata update
  have hslot : ∀ t' i' m, storeGet st.nodes t' i' = some m →
      ∃ m', storeGet (update_job_node st.nodes (update_info cur0 event.node)) t' i' = some m' ∧
        m.relaunchCount ≤ m'.relaunchCount ∧ m'.status = m.status ∧
        m'.type = m.type ∧ m'.id = m.id ∧
        (¬(cur0.type = t' ∧ cur0.id = i') → m' = m) := by
    intro t' i' m hm
    by_cases hsame : cur0.type = t' ∧ cur0.id = i'
    · have he1 : t' = event.node.type := hsame.1.symm.trans hti0.1
      have he2 : i' = event.node.id := hsame.2.symm.trans hti0.2
      have hmc : m = cur0 := by
        rw [he1, he2] at hm
        rw [hcur] at hm
        cases hm
        rfl
      refine ⟨update_info cur0 event.node, ?_, ?_, ?_, ?_, ?_, ?_⟩
      · have := hcur1get
        rw [(update_info_type_id cur0 event.node).1,
          (update_info_type_id cur0 event.node).2, hsame.1, hsame.2] at this
        exact this
      · rw [hmc]
        exact update_info_relaunchCount_le cur0 event.node
      · rw [hmc]
        exact update_info_status cur0 event.node
      · rw [hmc, (update_info_type_id cur0 event.node).1]
      · rw [hmc, (update_info_type_id cur0 event.node).2]
      · intro hcon
        exact absurd hsame hcon
    · have hne : ¬((update_info cur0 event.node).type = t' ∧
          (update_info cur0 event.node).id = i') := by
        rw [(update_info_type_id cur0 event.node).1,
          (update_info_type_id cur0 event.node).2]
        exact hsame
      rw [storeGet_update_ne st.nodes (update_info cur0 event.node) t' i' hne]
      exact ⟨m, hm, le_refl _, rfl, rfl, rfl, fun _ => rfl⟩
  unfold processEventWithNode
  dsimp only
  by_cases hexit : event.eventType = NodeEventType.exit
  · simp only [hexit, if_pos rfl]
    obtain ⟨m', hm', hle, hst, _, _, _⟩ := hslot t i n h
    exact ⟨m', hm', hle, fun hs => by rw [hst, hs]⟩
  · simp only [if_neg hexit]
    cases hflow : get_node_state_flow (update_info cur0 event.node).status
        event.eventType event.node.status with
    | none =>
        simp only [noChange]
        obtain ⟨m', hm', hle, hst, _, _, _⟩ := hslot t i n h
        exact ⟨m', hm', hle, fun hs => by rw [hst, hs]⟩
    | some flow =>
        by_cases hfrom : flow.fromStatus = NodeStatus.succeeded
        · simp only [hfrom, if_pos rfl, noChange]
          obtain ⟨m', hm', hle, hst, _, _, _⟩ := hslot t i n h
          exact ⟨m', hm', hle, fun hs => by rw [hst, hs]⟩
        · simp only [if_neg hfrom]
          -- the transition branch: the looked-up node is not succeeded
          have hnotsucc : (update_info cur0 event.node).status ≠ NodeStatus.succeeded := by
            intro hs
            rw [hs, get_node_state_flow_succeeded] at hflow
            cases hflow
          obtain ⟨m1, hm1, hle1, hst1, hty1, hid1, _⟩ := hslot t i n h
          have hkey1 : storeGet (update_job_node st.nodes (update_info cur0 event.node))
              (update_info cur0 event.node).type (update_info cur0 event.node).id =
              some (update_info cur0 event.node) := hcur1get
          obtain ⟨n', hn', hle2, huntouched⟩ :=
            processEventTransition_preserves cfg
              { st with nodes := update_job_node st.nodes (update_info cur0 event.node) }
              event.node (update_info cur0 event.node) flow t i m1 hkey1 hm1
          refine ⟨n', hn', le_trans hle1 hle2, ?_⟩
          intro hs
          by_cases hsame : (update_info cur0 event.node).type = t ∧
              (update_info cur0 event.node).id = i
          · -- the event slot cannot hold a succeeded node here
            exfalso
            have hmc : m1 = update_info cur0 event.node := by
              rw [← hsame.1, ← hsame.2] at hm1
              rw [hkey1] at hm1
              cases hm1
              rfl
            exact hnotsucc (by rw [← hmc, hst1, hs])
          · rw [huntouched hsame]
            rw [hst1, hs]

/-- Per-event preservation: every stored slot keeps a node with
non-decreasing relaunch count, and a succeeded slot stays succeeded. -/
theorem process_event_preserves (cfg : JobConfig) (lp : PodUniqueLabels → List Pod)
    (st : ManagerState) (e : NodeEvent) (t : NodeType) (i : Nat) (n : Node)
    (h : storeGet st.nodes t i = some n) :
    ∃ n', storeGet (_process_event cfg lp st e).state.nodes t i = some n' ∧
      n.relaunchCount ≤ n'.relaunchCount ∧
      (n.status = NodeStatus.succeeded → n'.status = NodeStatus.succeeded) := by
  unfold _process_event
  by_cases hskip : deletedEventFilterHit cfg lp e = true
  · simp only [hskip, if_pos rfl, noChange]
    exact ⟨n, h, le_refl _, fun hs => hs⟩
  · simp only [if_neg hskip]
    cases hget : storeGet st.nodes e.node.type e.node.id with
    | none =>
        simp only [noChange]
        exact ⟨n, h, le_refl _, fun hs => hs⟩
    | some cur0 =>
        exact processEventWithNode_preserves cfg st e cur0 t i n hget h

/-- Preservation over a whole event history. -/
theorem processEvents_preserves (cfg : JobConfig) (lp : PodUniqueLabels → List Pod)
    (evs : List NodeEvent) :
    ∀ st t i n, storeGet st.nodes t i = some n →
    ∃ n', storeGet (processEvents cfg lp st evs).nodes t i = some n' ∧
      n.relaunchCount ≤ n'.relaunchCount ∧
      (n.status = NodeStatus.succeeded → n'.status = NodeStatus.succeeded) := by
  induction evs with
  | nil => exact fun st t i n h => ⟨n, h, le_refl _, fun hs => hs⟩
  | cons e rest ih =>
      intro st t i n h
      obtain ⟨n1, h1, hle1, hs1⟩ := process_event_preserves cfg lp st e t i n h
      rw [processEvents]
      by_cases hc : (_process_event cfg lp st e).closed = true
      · simp only [hc, if_pos rfl]
        exact ⟨n1, h1, hle1, hs1⟩
      · simp only [if_neg hc]
        obtain ⟨n2, h2, hle2, hs2⟩ := ih _ t i n1 h1
        exact ⟨n2, h2, le_trans hle1 hle2, fun hs => hs2 (hs1 hs)⟩

/-! ### Behaviour after `stop()` -/

theorem filter_unreleased_nil (s : Store) (p : Node → Bool)
    (hall : allReleasedB s = true) :
    (s.filter fun n => !n.isReleased && p n) = [] := by
  induction s with
  | nil => rfl
  | cons n rest ih =>
      rw [allReleasedB, List.all_cons, Bool.and_eq_true] at hall
      have h1 : (!n.isReleased && p n) = false := by
        rw [hall.1]
        rfl
      rw [List.filter_cons, h1, if_neg Bool.false_ne_true]
      exact ih hall.2

theorem filter_not_released_nil (s : Store)
    (hall : allReleasedB s = true) :
    (s.filter fun n => !n.isReleased) = [] := by
  induction s with
  | nil => rfl
  | cons n rest ih =>
      rw [allReleasedB, List.all_cons, Bool.and_eq_true] at hall
      have h1 : (!n.isReleased) = false := by
        rw [hall.1]
        rfl
      rw [List.filter_cons, h1, if_neg Bool.false_ne_true]
      exact ih hall.2

theorem allReleasedB_release_map (s : Store) :
    allReleasedB (s.map fun n =>
      { n with critical := false, isReleased := true, relaunchable := false }) = true := by
  induction s with
  | nil => rfl
  | cons n rest ih =>
      simp only [allReleasedB, List.map_cons, List.all_cons, Bool.and_eq_true]
      constructor
      · trivial
      · simpa only [allReleasedB] using ih

/-- `stop` on an unstopped manager disables relaunch, releases everything
and sets the stopped flag. -/
theorem stopManager_spec (st : ManagerState) (h : st.stopped = false) :
    (stopManager st).enableRelaunch = false ∧
    allReleasedB (stopManager st).nodes = true ∧
    (stopManager st).stopped = true := by
  unfold stopManager
  rw [h, if_neg Bool.false_ne_true]
  exact ⟨rfl, allReleasedB_release_map st.nodes, rfl⟩

/-- With everything released, `clear_exited_nodes` passes nothing to the
scaler and does not change the state. -/
theorem clear_exited_nodes_released (cfg : JobConfig) (st : ManagerState)
    (hall : allReleasedB st.nodes = true) :
    clear_exited_nodes cfg st = (st, []) := by
  unfold clear_exited_nodes
  have hfee := filter_unreleased_nil st.nodes nodeExited hall
  by_cases hrm : cfg.removeExitedNode = true
  · rw [hrm]
    rw [if_neg (by simp : ¬(!true) = true)]
    dsimp only
    rw [hfee]
    rfl
  · rw [Bool.not_eq_true] at hrm
    rw [hrm]
    rfl

/-- With relaunch disabled, the transition tail never passes a plan to the
scaler, never closes the job, keeps relaunch disabled and keeps every node
released. -/
theorem processEventTransition_disabled (cfg : JobConfig) (st1 : ManagerState)
    (enode cur1 : Node) (flow : NodeStateFlow)
    (hen : st1.enableRelaunch = false) :
    (processEventTransition cfg st1 enode cur1 flow).plans = [] ∧
    (processEventTransition cfg st1 enode cur1 flow).closed = false ∧
    (processEventTransition cfg st1 enode cur1 flow).state.enableRelaunch = false ∧
    (cur1.isReleased = true → allReleasedB st1.nodes = true →
      allReleasedB (processEventTransition cfg st1 enode cur1 flow).state.nodes = true) := by
  unfold processEventTransition
  dsimp only
  rw [hen, should_relaunch_disabled]
  dsimp only
  rw [if_neg Bool.false_ne_true]
  refine ⟨rfl, rfl, rfl, ?_⟩
  intro hcur hall
  dsimp only
  exact allReleasedB_update _ _ (allReleasedB_update _ _ hall hcur) hcur

/-- With relaunch disabled, a non-exit event never passes a plan to the
scaler, never closes the job, keeps relaunch disabled and keeps every node
released. -/
theorem process_event_disabled (cfg : JobConfig) (lp : PodUniqueLabels → List Pod)
    (st : ManagerState) (e : NodeEvent)
    (hen : st.enableRelaunch = false) (hexit : e.eventType ≠ NodeEventType.exit) :
    (_process_event cfg lp st e).plans = [] ∧
    (_process_event cfg lp st e).closed = false ∧
    (_process_event cfg lp st e).state.enableRelaunch = false ∧
    (allReleasedB st.nodes = true →
      allReleasedB (_process_event cfg lp st e).state.nodes = true) := by
  unfold _process_event
  by_cases hskip : deletedEventFilterHit cfg lp e = true
  · rw [if_pos hskip]
    exact ⟨rfl, rfl, hen, fun h => h⟩
  · rw [if_neg hskip]
    cases hget : storeGet st.nodes e.node.type e.node.id with
    | none => exact ⟨rfl, rfl, hen, fun h => h⟩
    | some cur0 =>
        unfold processEventWithNode
        dsimp only
        rw [if_neg hexit]
        cases hflow : get_node_state_flow (update_info cur0 e.node).status
            e.eventType e.node.status with
        | none =>
            dsimp only
            refine ⟨rfl, rfl, hen, ?_⟩
            intro hall
            exact allReleasedB_update _ _ hall
              (update_info_isReleased _ _ (allReleasedB_storeGet _ _ _ _ hall hget))
        | some flow =>
            dsimp only
            by_cases hfrom : flow.fromStatus = NodeStatus.succeeded
            · rw [if_pos hfrom]
              refine ⟨rfl, rfl, hen, ?_⟩
              intro hall
              exact allReleasedB_update _ _ hall
                (update_info_isReleased _ _ (allReleasedB_storeGet _ _ _ _ hall hget))
            · rw [if_neg hfrom]
              have htr := processEventTransition_disabled cfg
                { st with nodes := update_job_node st.nodes (update_info cur0 e.node) }
                e.node (update_info cur0 e.node) flow hen
              refine ⟨htr.1, htr.2.1, htr.2.2.1, ?_⟩
              intro hall
              have hrel : (update_info cur0 e.node).isReleased = true :=
                update_info_isReleased _ _ (allReleasedB_storeGet _ _ _ _ hall hget)
              exact htr.2.2.2 hrel (allReleasedB_update _ _ hall hrel)

/-- With relaunch disabled and everything released, a history of non-exit
events and exited-node clears passes nothing to the scaler. -/
theorem runOps_disabled (cfg : JobConfig) (lp : PodUniqueLabels → List Pod)
    (ops : List MgrOp) :
    ∀ st : ManagerState, st.enableRelaunch = false → allReleasedB st.nodes = true →
    (∀ e, MgrOp.procEvent e ∈ ops → e.eventType ≠ NodeEventType.exit) →
    (runOps cfg lp st ops).2 = [] := by
  induction ops with
  | nil =>
      intro st _ _ _
      rfl
  | cons op rest ih =>
      intro st hen hall hexit
      cases op with
      | procEvent e =>
          have he : e.eventType ≠ NodeEventType.exit :=
            hexit e (List.mem_cons_self _ _)
          have hd := process_event_disabled cfg lp st e hen he
          rw [runOps]
          dsimp only
          rw [hd.2.1, if_neg Bool.false_ne_true]
          dsimp only
          rw [hd.1, List.nil_append]
          exact ih _ hd.2.2.1 (hd.2.2.2 hall)
            (fun e' hm => hexit e' (List.mem_cons_of_mem _ hm))
      | clearExited =>
          rw [runOps]
          dsimp only
          rw [clear_exited_nodes_released cfg st hall]
          dsimp only
          rw [List.nil_append]
          exact ih st hen hall
            (fun e' hm => hexit e' (List.mem_cons_of_mem _ hm))

/-! ### Concrete fixtures used by witnesses and counterexamples -/

def sampleCfg : JobConfig :=
  { jobName := "test"
    strategy := DistributionStrategy.psStrategy
    relaunchAlways := false
    maxMemory := 102400
    removeExitedNode := true
    waitPendingRelaunch := false }

def baseNode : Node :=
  { type := NodeType.worker
    id := 4
    rankIndex := 4
    name := some "test-edljob-worker-4"
    status := NodeStatus.running
    exitReason := NodeExitReason.noReason
    relaunchCount := 1
    maxRelaunchCount := 3
    relaunchable := true
    isReleased := false
    critical := false
    isRecoveredOom := false
    restartTraining := false
    configMemory := 2048
    heartbeatTime := 0
    createTime := none
    startTime := none
    hostName := none
    hostIp := none
    serviceAddr := none
    reportedStatus := NodeEventType.empty }

def flowRunningFailed : NodeStateFlow :=
  { fromStatus := NodeStatus.running
    toStatus := NodeStatus.failed
    shouldRelaunch := true }

def oomNode : Node :=
  { baseNode with status := NodeStatus.failed, exitReason := NodeExitReason.oom }

def oomExhaustedNode : Node :=
  { baseNode with
      status := NodeStatus.failed
      exitReason := NodeExitReason.oom
      relaunchCount := 3
      maxRelaunchCount := 3 }

def killedNode : Node :=
  { baseNode with status := NodeStatus.failed, exitReason := NodeExitReason.killed }

def killedExhaustedNode : Node :=
  { baseNode with
      status := NodeStatus.failed
      exitReason := NodeExitReason.killed
      relaunchCount := 3
      maxRelaunchCount := 3 }

def killedEvent : NodeEvent :=
  { eventType := NodeEventType.modified, node := killedNode }

def demoState : ManagerState :=
  { nodes := [baseNode]
    jobStage := JobStage.jobRunning
    enableRelaunch := true
    stopped := false
    pendingRelaunchCount := 0 }

def noPods : PodUniqueLabels → List Pod := fun _ => []

/-! ### Claims about the relaunch policy -/

/-- Claim C1: for a node event whose state-flow transition has
should_relaunch true, with relaunch enabled, a relaunchable node, a job
stage that is not stopping, exit reason OOM, a non-all-reduce job, config
memory strictly below MAX_MEMORY and relaunch budget remaining,
`_should_relaunch` returns true, sets `is_recovered_oom`, calls the job
optimizer to adjust the OOM resource and increments `relaunch_count` by
exactly one. -/
theorem C1_should_relaunch_oom (cfg : JobConfig) (en : Bool) (stage : JobStage)
    (node : Node) (flow : NodeStateFlow)
    (hflow : flow.shouldRelaunch = true) (hen : en = true)
    (hrel : node.relaunchable = true) (hstage : stage ≠ JobStage.jobStopping)
    (hoom : node.exitReason = NodeExitReason.oom)
    (har : isAllReduceTypeJob cfg = false)
    (hmem : node.configMemory < cfg.maxMemory)
    (hcount : node.relaunchCount < node.maxRelaunchCount) :
    (_should_relaunch cfg en stage node flow).result = true ∧
    (_should_relaunch cfg en stage node flow).node.isRecoveredOom = true ∧
    (_should_relaunch cfg en stage node flow).oomAdjusted = true ∧
    (_should_relaunch cfg en stage node flow).node.relaunchCount = node.relaunchCount + 1 := by
  have hmem' : ¬node.configMemory ≥ cfg.maxMemory := not_le.mpr hmem
  have hcount' : ¬node.relaunchCount ≥ node.maxRelaunchCount := not_le.mpr hcount
  have hstep : relaunchPolicyStep cfg stage node =
      (true, { node with isRecoveredOom := true }, true, none) := by
    simp [relaunchPolicyStep, hstage, hoom, har, hmem', hcount']
  have hgate : (flow.shouldRelaunch && en && node.relaunchable) = true := by
    rw [hflow, hen, hrel]
    rfl
  simp [_should_relaunch, hgate, hstep]

/-- Witness for C1 at a concrete OOM-failed worker. -/
theorem C1_witness :
    (_should_relaunch sampleCfg true JobStage.jobRunning oomNode flowRunningFailed).result = true ∧
    (_should_relaunch sampleCfg true JobStage.jobRunning oomNode flowRunningFailed).node.isRecoveredOom = true ∧
    (_should_relaunch sampleCfg true JobStage.jobRunning oomNode flowRunningFailed).oomAdjusted = true ∧
    (_should_relaunch sampleCfg true JobStage.jobRunning oomNode flowRunningFailed).node.relaunchCount =
      oomNode.relaunchCount + 1 :=
  C1_should_relaunch_oom sampleCfg true JobStage.jobRunning oomNode flowRunningFailed
    rfl rfl rfl (by decide) rfl (by decide) (by decide) (by decide)

/-- The relaunch policy denies a node with an exhausted budget whenever the
exit reason is not `killed`, leaving the count untouched. -/
theorem relaunchPolicyStep_exhausted (cfg : JobConfig) (stage : JobStage) (node : Node)
    (hkill : node.exitReason ≠ NodeExitReason.killed)
    (hmax : node.maxRelaunchCount ≤ node.relaunchCount) :
    (relaunchPolicyStep cfg stage node).1 = false := by
  unfold relaunchPolicyStep
  split_ifs <;> rfl

theorem should_relaunch_exhausted_count (cfg : JobConfig) (en : Bool)
    (stage : JobStage) (node : Node) (flow : NodeStateFlow)
    (hkill : node.exitReason ≠ NodeExitReason.killed)
    (hmax : node.maxRelaunchCount ≤ node.relaunchCount) :
    (_should_relaunch cfg en stage node flow).node.relaunchCount = node.relaunchCount := by
  simp only [_should_relaunch]
  by_cases hg : (flow.shouldRelaunch && en && node.relaunchable) = true
  · simp only [hg, if_true]
    rw [relaunchPolicyStep_exhausted cfg stage node hkill hmax, if_neg Bool.false_ne_true]
    exact relaunchPolicyStep_count cfg stage node
  · simp [hg]

/-- Claim C2 (amended): over every history of processed events a node's
relaunch_count never decreases, and `_should_relaunch` never increments the
count of a node whose budget is exhausted when the exit reason is not
`killed`; for `killed` the increment happens regardless of the budget, so
the `min(max_relaunch_count, 5)` bound of the original claim can be
exceeded. -/
theorem C2_relaunch_count (cfg : JobConfig) (lp : PodUniqueLabels → List Pod)
    (st : ManagerState) (evs : List NodeEvent) (t : NodeType) (i : Nat) (n : Node)
    (h : storeGet st.nodes t i = some n) :
    (∃ n', storeGet (processEvents cfg lp st evs).nodes t i = some n' ∧
       n.relaunchCount ≤ n'.relaunchCount) ∧
    (∀ en stage node flow, node.exitReason ≠ NodeExitReason.killed →
       node.maxRelaunchCount ≤ node.relaunchCount →
       (_should_relaunch cfg en stage node flow).node.relaunchCount = node.relaunchCount) := by
  constructor
  · obtain ⟨n', h', hle, _⟩ := processEvents_preserves cfg lp evs st t i n h
    exact ⟨n', h', hle⟩
  · intro en stage node flow hkill hmax
    exact should_relaunch_exhausted_count cfg en stage node flow hkill hmax

/-- Witness for C2 at a concrete store and event history. -/
theorem C2_witness :
    (∃ n', storeGet (processEvents sampleCfg noPods demoState [killedEvent]).nodes
        NodeType.worker 4 = some n' ∧ baseNode.relaunchCount ≤ n'.relaunchCount) ∧
    (_should_relaunch sampleCfg true JobStage.jobRunning oomExhaustedNode
        flowRunningFailed).node.relaunchCount = oomExhaustedNode.relaunchCount :=
  ⟨(C2_relaunch_count sampleCfg noPods demoState [killedEvent]
      NodeType.worker 4 baseNode (by decide)).1,
   (C2_relaunch_count sampleCfg noPods demoState [killedEvent]
      NodeType.worker 4 baseNode (by decide)).2 true JobStage.jobRunning
      oomExhaustedNode flowRunningFailed (by decide) (by decide)⟩

/-- Counterexample to claim C2 as stated: a killed node whose
relaunch_count already equals max_relaunch_count is still incremented, so
the count exceeds min(max_relaunch_count, 5). -/
theorem C2_counterexample :
    killedExhaustedNode.relaunchCount = killedExhaustedNode.maxRelaunchCount ∧
    (_should_relaunch sampleCfg true JobStage.jobRunning killedExhaustedNode
        flowRunningFailed).node.relaunchCount = 4 ∧
    4 > min killedExhaustedNode.maxRelaunchCount 5 := by
  decide

/-- Claim C7 (amended): a worker that transitions running → failed with
exit reason `killed` on a relaunch-eligible transition with relaunch
enabled, a relaunchable node and a job that is not stopping IS relaunched:
`_should_relaunch` returns true (killed bypasses every other disable rule,
including the budget check) and the relaunch count increments. -/
theorem C7_killed_relaunch (cfg : JobConfig) (en : Bool) (stage : JobStage)
    (node : Node) (flow : NodeStateFlow)
    (hflow : flow.shouldRelaunch = true) (hen : en = true)
    (hrel : node.relaunchable = true) (hstage : stage ≠ JobStage.jobStopping)
    (hkill : node.exitReason = NodeExitReason.killed) :
    (_should_relaunch cfg en stage node flow).result = true ∧
    (_should_relaunch cfg en stage node flow).node.relaunchCount = node.relaunchCount + 1 := by
  have hstep : relaunchPolicyStep cfg stage node = (true, node, false, none) := by
    simp [relaunchPolicyStep, hstage, hkill]
  have hgate : (flow.shouldRelaunch && en && node.relaunchable) = true := by
    rw [hflow, hen, hrel]
    rfl
  simp [_should_relaunch, hgate, hstep]

/-- Witness for C7 at a concrete killed worker. -/
theorem C7_witness :
    (_should_relaunch sampleCfg true JobStage.jobRunning killedNode flowRunningFailed).result = true ∧
    (_should_relaunch sampleCfg true JobStage.jobRunning killedNode flowRunningFailed).node.relaunchCount =
      killedNode.relaunchCount + 1 :=
  C7_killed_relaunch sampleCfg true JobStage.jobRunning killedNode flowRunningFailed
    rfl rfl rfl (by decide) rfl

/-- Counterexample to claim C7 as stated: the killed worker is allowed to
relaunch and a relaunch plan is passed to the scaler. -/
theorem C7_counterexample :
    (_should_relaunch sampleCfg true JobStage.jobRunning killedNode flowRunningFailed).result = true ∧
    ((_process_event sampleCfg noPods demoState killedEvent).plans).length = 1 := by
  decide

/-! ### Claim C3: dead-node detection -/

theorem deadNodeEventFor_iff (now : Int) (node : Node) (e : NodeEvent) :
    deadNodeEventFor now 600 node = some e ↔
      (node.status = NodeStatus.running ∧ isSucceededAndExited node = false ∧
       node.heartbeatTime > 0 ∧ now - node.heartbeatTime > 600 ∧
       (∃ createT startT, node.createTime = some createT ∧ node.startTime = some startT ∧
         node.heartbeatTime > createT ∧ node.heartbeatTime > startT) ∧
       e = mkDeadNodeEvent node) := by
  unfold deadNodeEventFor
  cases hst : node.startTime with
  | none =>
      cases hct : node.createTime <;> simp
  | some startT =>
      cases hct : node.createTime with
      | none => simp
      | some createT =>
          dsimp only
          constructor
          · intro h
            by_cases h1 : (node.heartbeatTime > 0 && now - node.heartbeatTime > 600
                && node.status = NodeStatus.running && !(isSucceededAndExited node)) = true
            · rw [if_pos h1] at h
              by_cases h2 : (node.heartbeatTime ≤ startT || node.heartbeatTime ≤ createT) = true
              · rw [if_pos h2] at h
                cases h
              · rw [if_neg h2] at h
                cases h
                simp only [Bool.and_eq_true, Bool.not_eq_true', decide_eq_true_eq] at h1
                simp only [Bool.or_eq_true, decide_eq_true_eq, not_or, not_le] at h2
                exact ⟨h1.1.2, h1.2, h1.1.1.1, h1.1.1.2,
                  ⟨createT, startT, rfl, rfl, h2.2, h2.1⟩, rfl⟩
            · rw [if_neg h1] at h
              cases h
          · rintro ⟨hrun, hsucc, hhb, hwin, ⟨ct, stt, hcteq, hsteq, hhbct, hhbst⟩, he⟩
            cases hcteq
            cases hsteq
            have h1 : (node.heartbeatTime > 0 && now - node.heartbeatTime > 600
                && node.status = NodeStatus.running && !(isSucceededAndExited node)) = true := by
              simp only [Bool.and_eq_true, Bool.not_eq_true', decide_eq_true_eq]
              exact ⟨⟨⟨hhb, hwin⟩, hrun⟩, hsucc⟩
            rw [if_pos h1]
            have h2 : ¬((node.heartbeatTime ≤ startT || node.heartbeatTime ≤ createT) = true) := by
              simp only [Bool.or_eq_true, decide_eq_true_eq, not_or, not_le]
              exact ⟨hhbst, hhbct⟩
            rw [if_neg h2, he]

/-- Claim C3: with the default 600-second window, `_get_dead_node_event`
returns a synthesized DELETED event with exit reason no_heartbeat for a
node exactly when the node is running, has not succeeded-and-exited, has a
positive heartbeat that is more than 600 seconds stale and strictly
postdates both its create and start times; nodes whose heartbeat does not
postdate those times are never reported dead. -/
theorem C3_get_dead_node_event (now : Int) (nodes : Store) (e : NodeEvent) :
    e ∈ _get_dead_node_event now 600 nodes ↔
      ∃ node ∈ nodes, node.status = NodeStatus.running ∧
        isSucceededAndExited node = false ∧
        node.heartbeatTime > 0 ∧ now - node.heartbeatTime > 600 ∧
        (∃ createT startT, node.createTime = some createT ∧ node.startTime = some startT ∧
          node.heartbeatTime > createT ∧ node.heartbeatTime > startT) ∧
        e = mkDeadNodeEvent node := by
  unfold _get_dead_node_event
  rw [List.mem_filterMap]
  constructor
  · rintro ⟨node, hmem, hsome⟩
    exact ⟨node, hmem, (deadNodeEventFor_iff now node e).mp hsome⟩
  · rintro ⟨node, hmem, hbig⟩
    exact ⟨node, hmem, (deadNodeEventFor_iff now node e).mpr hbig⟩

def deadSample : Node :=
  { baseNode with
      heartbeatTime := 300
      createTime := some 100
      startTime := some 200 }

/-- Witness for C3 at a concrete dead node. -/
theorem C3_witness :
    mkDeadNodeEvent deadSample ∈ _get_dead_node_event 1000 600 [deadSample] :=
  (C3_get_dead_node_event 1000 [deadSample] (mkDeadNodeEvent deadSample)).mpr
    ⟨deadSample, List.mem_singleton.mpr rfl, rfl, rfl, by decide, by decide,
      ⟨100, 200, rfl, rfl, by decide, by decide⟩, rfl⟩

/-! ### Claim C4: deleted-event filtering -/

/-- Claim C4: for a DELETED event (or one whose node status is deleted)
without a positive exit reason, `_process_event` queries the cluster for
pods matching the node's unique labels (job name, replica type, rank
index, replica index) and returns with nothing changed when a matching pod
is running without a deletion timestamp; events with exit reason diag_fail
or no_heartbeat skip the filter entirely (the outcome does not depend on
the pod listing). -/
theorem C4_deletion_filter (cfg : JobConfig) (lp : PodUniqueLabels → List Pod)
    (st : ManagerState) (event : NodeEvent) :
    (get_pod_unique_labels cfg event.node =
      { jobName := cfg.jobName, replicaType := event.node.type,
        rankIndex := event.node.rankIndex, replicaIndex := event.node.id }) ∧
    (((event.eventType = NodeEventType.deleted ∨ event.node.status = NodeStatus.deleted) ∧
        is_positive_exit event.node.exitReason = false ∧
        ∃ p ∈ lp (get_pod_unique_labels cfg event.node),
          p.phase = NodeStatus.running ∧ p.hasDeletionTimestamp = false) →
      _process_event cfg lp st event = noChange st) ∧
    (is_positive_exit event.node.exitReason = true →
      ∀ lp', _process_event cfg lp st event = _process_event cfg lp' st event) := by
  refine ⟨rfl, ?_, ?_⟩
  · rintro ⟨hdel, hpos, p, hp, hrun, hdt⟩
    have hhit : deletedEventFilterHit cfg lp event = true := by
      unfold deletedEventFilterHit
      simp only [Bool.and_eq_true, Bool.or_eq_true, Bool.not_eq_true',
        List.any_eq_true, decide_eq_true_eq]
      refine ⟨⟨?_, hpos⟩, p, hp, ?_⟩
      · exact hdel
      · exact ⟨hrun, hdt⟩
    unfold _process_event
    rw [hhit, if_pos rfl]
  · intro hpos lp'
    have h1 : deletedEventFilterHit cfg lp event = false := by
      unfold deletedEventFilterHit
      rw [hpos]
      simp
    have h2 : deletedEventFilterHit cfg lp' event = false := by
      unfold deletedEventFilterHit
      rw [hpos]
      simp
    unfold _process_event
    rw [h1, h2, if_neg Bool.false_ne_true]

def runningPod : Pod := { phase := NodeStatus.running, hasDeletionTimestamp := false }

def onePod : PodUniqueLabels → List Pod := fun _ => [runningPod]

def ghostEvent : NodeEvent :=
  { eventType := NodeEventType.deleted, node := { baseNode with status := NodeStatus.deleted } }

/-- Witness for C4: a ghost DELETED event is dropped when a matching pod is
still running. -/
theorem C4_witness :
    _process_event sampleCfg onePod demoState ghostEvent = noChange demoState :=
  (C4_deletion_filter sampleCfg onePod demoState ghostEvent).2.1
    ⟨Or.inl rfl, rfl, runningPod, List.mem_singleton.mpr rfl, rfl, rfl⟩

/-! ### Claims C5 and C6: none-transitions and terminal statuses -/

def succNode : Node :=
  { baseNode with
      id := 0
      rankIndex := 0
      status := NodeStatus.succeeded
      hostName := some "host-a" }

def succState : ManagerState :=
  { nodes := [succNode]
    jobStage := JobStage.jobRunning
    enableRelaunch := true
    stopped := false
    pendingRelaunchCount := 0 }

def succEvent : NodeEvent :=
  { eventType := NodeEventType.modified
    node := { succNode with status := NodeStatus.running, hostName := some "host-b" } }

/-- Counterexample to claim C5 as stated: an event whose synthesized
transition is none (here: out of succeeded) still changes the stored
node's host name, because the metadata update runs before the transition
check. -/
theorem C5_counterexample :
    get_node_state_flow succNode.status succEvent.eventType succEvent.node.status = none ∧
    (storeGet succState.nodes NodeType.worker 0).map Node.hostName = some (some "host-a") ∧
    (storeGet (_process_event sampleCfg noPods succState succEvent).state.nodes
        NodeType.worker 0).map Node.hostName = some (some "host-b") := by
  decide

/-- Claim C5 (amended): when the deleted-event filter does not drop the
event, the target node is in the store, the event is not "exit" and the
state flow is none, `_process_event` changes the store exactly by the
metadata update of the event (leaving the node's status and exit reason
unchanged) and passes no plan to the scaler; metadata fields such as name,
times, host, restart flag, relaunch count and release flag can therefore
change even for a none-transition. -/
theorem C5_none_transition (cfg : JobConfig) (lp : PodUniqueLabels → List Pod)
    (st : ManagerState) (event : NodeEvent) (cur : Node)
    (hskip : deletedEventFilterHit cfg lp event = false)
    (hget : storeGet st.nodes event.node.type event.node.id = some cur)
    (hexit : event.eventType ≠ NodeEventType.exit)
    (hflow : get_node_state_flow cur.status event.eventType event.node.status = none) :
    (_process_event cfg lp st event).state =
      { st with nodes := update_job_node st.nodes (update_info cur event.node) } ∧
    (_process_event cfg lp st event).plans = [] ∧
    (update_info cur event.node).status = cur.status ∧
    (update_info cur event.node).exitReason = cur.exitReason := by
  unfold _process_event
  rw [hskip, if_neg Bool.false_ne_true, hget]
  unfold processEventWithNode
  dsimp only
  rw [if_neg hexit]
  have hflow' : get_node_state_flow (update_info cur event.node).status
      event.eventType event.node.status = none := hflow
  rw [hflow']
  exact ⟨rfl, rfl, rfl, rfl⟩

/-- Witness for C5 at a concrete succeeded node and modified event. -/
theorem C5_witness :
    (_process_event sampleCfg noPods succState succEvent).state =
      { succState with nodes := update_job_node succState.nodes (update_info succNode succEvent.node) } ∧
    (_process_event sampleCfg noPods succState succEvent).plans = [] ∧
    (update_info succNode succEvent.node).status = succNode.status ∧
    (update_info succNode succEvent.node).exitReason = succNode.exitReason :=
  C5_none_transition sampleCfg noPods succState succEvent succNode
    (by decide) (by decide) (by decide) (by decide)

/-- Counterexample to claim C6 as stated: `update_node_service_addr` moves
a succeeded node back to running, so the node can later record a second
terminal status. -/
theorem C6_counterexample :
    (storeGet succState.nodes NodeType.worker 0).map Node.status = some NodeStatus.succeeded ∧
    (storeGet (update_node_service_addr succState NodeType.worker 0 "addr").nodes
        NodeType.worker 0).map Node.status = some NodeStatus.running := by
  decide

/-- Claim C6 (amended): event processing and reported node events never
move a node out of succeeded, but `update_node_service_addr`
unconditionally sets the target node's status to running — even on a
succeeded node. -/
theorem C6_terminal_status (cfg : JobConfig) (lp : PodUniqueLabels → List Pod) :
    (∀ st evs t i n, storeGet st.nodes t i = some n → n.status = NodeStatus.succeeded →
       ∃ n', storeGet (processEvents cfg lp st evs).nodes t i = some n' ∧
         n'.status = NodeStatus.succeeded) ∧
    (∀ st ev t i n, storeGet st.nodes t i = some n → n.status = NodeStatus.succeeded →
       ∃ n', storeGet (process_reported_node_event st ev).nodes t i = some n' ∧
         n'.status = NodeStatus.succeeded) ∧
    (∀ st t i addr n, storeGet st.nodes t i = some n →
       ∃ n', storeGet (update_node_service_addr st t i addr).nodes t i = some n' ∧
         n'.status = NodeStatus.running) := by
  refine ⟨?_, ?_, ?_⟩
  · intro st evs t i n h hs
    obtain ⟨n', h', _, hsucc⟩ := processEvents_preserves cfg lp evs st t i n h
    exact ⟨n', h', hsucc hs⟩
  · intro st ev t i n h hs
    have hnodes : (process_reported_node_event st ev).nodes =
        (match storeGet st.nodes ev.node.type ev.node.id with
         | none => st.nodes
         | some m => update_job_node st.nodes { m with reportedStatus := ev.eventType }) := by
      unfold process_reported_node_event
      dsimp only
      by_cases hev : ev.eventType = NodeEventType.succeededExited
      · rw [if_pos hev]
        cases storeGet st.nodes ev.node.type ev.node.id <;> rfl
      · rw [if_neg hev]
        cases storeGet st.nodes ev.node.type ev.node.id <;> rfl
    rw [hnodes]
    cases hget : storeGet st.nodes ev.node.type ev.node.id with
    | none => exact ⟨n, h, hs⟩
    | some m =>
        dsimp only
        have hmti := storeGet_type_id _ _ _ _ hget
        by_cases hsame : m.type = t ∧ m.id = i
        · have hnm : n = m := by
            rw [← hsame.1, ← hsame.2] at h
            rw [← hmti.1, ← hmti.2] at hget
            rw [hget] at h
            cases h
            rfl
          rw [← hsame.1, ← hsame.2]
          refine ⟨_, storeGet_update_self st.nodes { m with reportedStatus := ev.eventType }, ?_⟩
          show m.status = NodeStatus.succeeded
          rw [← hnm]
          exact hs
        · have hne : ¬(({ m with reportedStatus := ev.eventType } : Node).type = t ∧
              ({ m with reportedStatus := ev.eventType } : Node).id = i) := by
            simpa using hsame
          rw [storeGet_update_ne _ _ _ _ hne]
          exact ⟨n, h, hs⟩
  · intro st t i addr n h
    unfold update_node_service_addr
    rw [h]
    dsimp only
    have hti := storeGet_type_id _ _ _ _ h
    rw [← hti.1, ← hti.2]
    exact ⟨_, storeGet_update_self st.nodes _, rfl⟩

/-- Witness for C6: applying the theorem at a concrete succeeded node. -/
theorem C6_witness :
    (∃ n', storeGet (processEvents sampleCfg noPods succState [succEvent]).nodes
        NodeType.worker 0 = some n' ∧ n'.status = NodeStatus.succeeded) ∧
    (∃ n', storeGet (update_node_service_addr succState NodeType.worker 0 "addr").nodes
        NodeType.worker 0 = some n' ∧ n'.status = NodeStatus.running) :=
  ⟨(C6_terminal_status sampleCfg noPods).1 succState [succEvent]
      NodeType.worker 0 succNode (by decide) rfl,
   (C6_terminal_status sampleCfg noPods).2.2 succState
      NodeType.worker 0 "addr" succNode (by decide)⟩

/-! ### Claim C8: early-stop conditions -/

/-- Claim C8: `should_early_stop` evaluates exactly four stop conditions
in source order — all-initial-workers node-check failure (all-reduce
only), OOM-recovered PS pending timeout, pending node causing a training
hang found by the PS or worker manager, and insufficient workers
(all-reduce only) — and returns the no-stop triple exactly when none
holds. -/
theorem C8_should_early_stop (cfg : JobConfig) (deps : EarlyStopDeps) :
    ((isAllReduceTypeJob cfg && deps.allInitialWorkersNodeCheckFailed) = true →
      should_early_stop cfg deps =
        (true, JobExitReason.nodeCheckFailed, earlyStopNodeCheckMsg)) ∧
    ((isAllReduceTypeJob cfg && deps.allInitialWorkersNodeCheckFailed) = false →
      deps.pendingTimeoutOomRecoveredPs.length > 0 →
      should_early_stop cfg deps =
        (true, JobExitReason.pendingTimeout, earlyStopOomPendingMsg)) ∧
    ((isAllReduceTypeJob cfg && deps.allInitialWorkersNodeCheckFailed) = false →
      ¬deps.pendingTimeoutOomRecoveredPs.length > 0 →
      (firstPendingNode deps).isSome = true →
      should_early_stop cfg deps =
        (true, JobExitReason.pendingTimeout, earlyStopPendingMsg)) ∧
    ((isAllReduceTypeJob cfg && deps.allInitialWorkersNodeCheckFailed) = false →
      ¬deps.pendingTimeoutOomRecoveredPs.length > 0 →
      (firstPendingNode deps).isSome = false →
      (isAllReduceTypeJob cfg && deps.insufficientWorker) = true →
      should_early_stop cfg deps =
        (true, JobExitReason.uncompletedTimeout, earlyStopInsufficientMsg)) ∧
    ((isAllReduceTypeJob cfg && deps.allInitialWorkersNodeCheckFailed) = false →
      ¬deps.pendingTimeoutOomRecoveredPs.length > 0 →
      (firstPendingNode deps).isSome = false →
      (isAllReduceTypeJob cfg && deps.insufficientWorker) = false →
      should_early_stop cfg deps = (false, JobExitReason.noneReason, "")) := by
  refine ⟨?_, ?_, ?_, ?_, ?_⟩
  · intro h1
    unfold should_early_stop
    rw [h1, if_pos rfl]
  · intro h1 h2
    unfold should_early_stop
    rw [h1, if_neg Bool.false_ne_true, if_pos h2]
  · intro h1 h2 h3
    unfold should_early_stop
    rw [h1, if_neg Bool.false_ne_true, if_neg h2, h3, if_pos rfl]
  · intro h1 h2 h3 h4
    unfold should_early_stop
    rw [h1, if_neg Bool.false_ne_true, if_neg h2, h3, if_neg Bool.false_ne_true,
      h4, if_pos rfl]
  · intro h1 h2 h3 h4
    unfold should_early_stop
    rw [h1, if_neg Bool.false_ne_true, if_neg h2, h3, if_neg Bool.false_ne_true, h4,
      if_neg Bool.false_ne_true]

def emptyDeps : EarlyStopDeps :=
  { allInitialWorkersNodeCheckFailed := false
    pendingTimeoutOomRecoveredPs := []
    psPendingHangNode := none
    workerPendingHangNode := none
    insufficientWorker := false }

/-- Witness for C8: with no condition holding, training is not stopped. -/
theorem C8_witness :
    should_early_stop sampleCfg emptyDeps = (false, JobExitReason.noneReason, "") :=
  (C8_should_early_stop sampleCfg emptyDeps).2.2.2.2
    (by decide) (by decide) (by decide) (by decide)

/-! ### Claim C9: scale plans after stop -/

/-- Counterexample to claim C9 as stated: after `stop()` has completed,
`clear_all_nodes` still passes a scale plan to the scaler. -/
theorem C9_counterexample :
    ((clear_all_nodes (stopManager demoState)).2).length = 1 := by
  decide

/-- Claim C9 (amended): after `stop()` on a not-yet-stopped manager, any
history of non-exit event processing and `clear_exited_nodes` calls passes
no scale plan to the scaler; `clear_all_nodes`, however, still passes one
plan to the scaler (with an empty removal list, since every node is
already released). -/
theorem C9_after_stop (cfg : JobConfig) (lp : PodUniqueLabels → List Pod)
    (st : ManagerState) (ops : List MgrOp)
    (hstopped : st.stopped = false)
    (hexit : ∀ e, MgrOp.procEvent e ∈ ops → e.eventType ≠ NodeEventType.exit) :
    (runOps cfg lp (stopManager st) ops).2 = [] ∧
    (clear_all_nodes (stopManager st)).2 =
      [{ nodeGroupResources := [], launchNodes := [], removeNodes := [], psAddrs := [] }] := by
  obtain ⟨hen, hall, _⟩ := stopManager_spec st hstopped
  constructor
  · exact runOps_disabled cfg lp ops _ hen hall hexit
  · unfold clear_all_nodes
    dsimp only
    rw [filter_not_released_nil _ hall]

/-- Witness for C9 at a concrete stopped manager. -/
theorem C9_witness :
    (runOps sampleCfg noPods (stopManager demoState) [MgrOp.clearExited]).2 = [] ∧
    (clear_all_nodes (stopManager demoState)).2 =
      [{ nodeGroupResources := [], launchNodes := [], removeNodes := [], psAddrs := [] }] :=
  C9_after_stop sampleCfg noPods demoState [MgrOp.clearExited] rfl
    (fun e hm => by simp at hm)

/-! ### Claim C10: reported node events -/

theorem relaunchPolicyStep_stopping (cfg : JobConfig) (node : Node) :
    relaunchPolicyStep cfg JobStage.jobStopping node =
      (false, node, false, some "Disable relaunch when job is stopping") := by
  unfold relaunchPolicyStep
  rw [if_pos rfl]

/-- Claim C10: `process_reported_node_event` records the reported status
on the node when it exists, sets the job stage to stopping exactly on
SUCCEEDED_EXITED events (all other event types leave the stage unchanged),
and once the stage is stopping `_should_relaunch` denies every relaunch,
reporting the job-stopping reason whenever the relaunch gate was open. -/
theorem C10_process_reported_node_event (st : ManagerState) (ev : NodeEvent) :
    (∀ n, storeGet st.nodes ev.node.type ev.node.id = some n →
       ∃ n', storeGet (process_reported_node_event st ev).nodes ev.node.type ev.node.id = some n' ∧
         n'.reportedStatus = ev.eventType) ∧
    (ev.eventType = NodeEventType.succeededExited →
      (process_reported_node_event st ev).jobStage = JobStage.jobStopping) ∧
    (ev.eventType ≠ NodeEventType.succeededExited →
      (process_reported_node_event st ev).jobStage = st.jobStage) ∧
    (∀ cfg en node flow,
      (_should_relaunch cfg en JobStage.jobStopping node flow).result = false) ∧
    (∀ cfg en node flow, (flow.shouldRelaunch && en && node.relaunchable) = true →
      (_should_relaunch cfg en JobStage.jobStopping node flow).notRelaunchMsg =
        some "Disable relaunch when job is stopping") := by
  refine ⟨?_, ?_, ?_, ?_, ?_⟩
  · intro n h
    have hnodes : (process_reported_node_event st ev).nodes =
        update_job_node st.nodes { n with reportedStatus := ev.eventType } := by
      unfold process_reported_node_event
      dsimp only
      rw [h]
      by_cases hev : ev.eventType = NodeEventType.succeededExited
      · rw [if_pos hev]
      · rw [if_neg hev]
    rw [hnodes]
    have hti := storeGet_type_id _ _ _ _ h
    rw [← hti.1, ← hti.2]
    exact ⟨_, storeGet_update_self st.nodes _, rfl⟩
  · intro hev
    unfold process_reported_node_event
    rw [if_pos hev]
  · intro hev
    unfold process_reported_node_event
    rw [if_neg hev]
    cases storeGet st.nodes ev.node.type ev.node.id <;> rfl
  · intro cfg en node flow
    simp only [_should_relaunch]
    by_cases hg : (flow.shouldRelaunch && en && node.relaunchable) = true
    · simp only [hg, if_true, relaunchPolicyStep_stopping]
    · simp [hg]
  · intro cfg en node flow hg
    simp only [_should_relaunch, hg, if_true, relaunchPolicyStep_stopping]

def succeededExitedEvent : NodeEvent :=
  { eventType := NodeEventType.succeededExited, node := baseNode }

/-- Witness for C10 at a concrete SUCCEEDED_EXITED report. -/
theorem C10_witness :
    (∃ n', storeGet (process_reported_node_event demoState succeededExitedEvent).nodes
        NodeType.worker 4 = some n' ∧
        n'.reportedStatus = NodeEventType.succeededExited) ∧
    (process_reported_node_event demoState succeededExitedEvent).jobStage =
      JobStage.jobStopping ∧
    (_should_relaunch sampleCfg true JobStage.jobStopping baseNode flowRunningFailed).result = false :=
  ⟨(C10_process_reported_node_event demoState succeededExitedEvent).1 baseNode (by decide),
   (C10_process_reported_node_event demoState succeededExitedEvent).2.1 rfl,
   (C10_process_reported_node_event demoState succeededExitedEvent).2.2.2.1
     sampleCfg true baseNode flowRunningFailed⟩

end DLRover
